import Mathlib

/-!
Verification of the jobHive backend presence/routing core.

The source is a small Node.js server (three variants: src/server.js,
src/unnamed/part_000, src/unnamed/part_001) that keeps a JavaScript
Map called connectedUsers from user email to socket id, and routes
job-posting, application and chat-message events through it.

The JavaScript Map is modelled as an ordered association list with the
Map semantics: set updates a present key in place (keeping its
position) and otherwise appends; get returns the value at the key;
delete removes the entry at the key; iteration follows insertion
order. User identities (emails) and connection identities (socket
ids) are strings. The JavaScript default string comparison (used by
Array.prototype.sort) compares code units left to right; it is
modelled here by an explicit lexicographic comparison on the
character lists of Lean strings, which agrees with it on the
identities the system handles. Database operations are modelled by
their outcome (an Option or Bool argument), since the document store
is an external collaborator.
-/

/-- Lexicographic comparison of character lists by code point, the
JavaScript default string order. -/
def ltCharList : List Char → List Char → Bool
  | [], [] => false
  | [], _ :: _ => true
  | _ :: _, [] => false
  | c :: a, d :: b =>
    if c.toNat < d.toNat then true
    else if d.toNat < c.toNat then false
    else ltCharList a b

/-- The JavaScript string comparison a < b. -/
def jsLt (a b : String) : Bool :=
  ltCharList a.data b.data

/-- A registry state: the connectedUsers JavaScript Map as an ordered
association list of (email, socketId) pairs. -/
abbrev Registry := List (String × String)

/-- JavaScript Map.set: if the key is present, update its value in
place (keeping insertion order); otherwise append the new entry. -/
def mapSet (m : Registry) (k v : String) : Registry :=
  match m with
  | [] => [(k, v)]
  | (k', v') :: rest =>
    if k' = k then (k, v) :: rest else (k', v') :: mapSet rest k v

/-- JavaScript Map.get: the value stored at the key, if any. -/
def mapGet (m : Registry) (k : String) : Option String :=
  match m with
  | [] => none
  | (k', v) :: rest => if k' = k then some v else mapGet rest k

/-- JavaScript Map.delete: remove the entry stored at the key. -/
def mapDelete (m : Registry) (k : String) : Registry :=
  match m with
  | [] => []
  | (k', v) :: rest =>
    if k' = k then rest else (k', v) :: mapDelete rest k

/-- The registerUser socket handler (src/server.js lines 54 to 57):
connectedUsers.set(email, socket.id). -/
def registerUser (reg : Registry) (email socketId : String) : Registry :=
  mapSet reg email socketId

/-- The disconnect handler of src/server.js (lines 106 to 114) and of
src/unnamed/part_001: iterate the entries in insertion order, delete
the first whose stored socket id equals the disconnecting one, then
break out of the loop. -/
def disconnectHandler (reg : Registry) (socketId : String) : Registry :=
  match reg with
  | [] => []
  | (email, id) :: rest =>
    if id = socketId then rest
    else (email, id) :: disconnectHandler rest socketId

/-- The disconnect handler of src/unnamed/part_000 (lines 66 to 73):
the same loop but without the break, so every entry whose stored
socket id equals the disconnecting one is deleted. -/
def disconnectHandlerAll (reg : Registry) (socketId : String) : Registry :=
  match reg with
  | [] => []
  | (email, id) :: rest =>
    if id = socketId then disconnectHandlerAll rest socketId
    else (email, id) :: disconnectHandlerAll rest socketId

/-- generateRoomId (src/server.js lines 118 to 120):
[user1, user2].sort().join("_"). The JavaScript default sort of a
two-element string array is stable and orders by the default string
comparison, so the result swaps the pair exactly when user2 < user1. -/
def generateRoomId (user1 user2 : String) : String :=
  if jsLt user2 user1 then user2 ++ "_" ++ user1 else user1 ++ "_" ++ user2

/-- A finite sequence of registerUser events applied in order. -/
def applyRegisters (evs : List (String × String)) (reg : Registry) : Registry :=
  match evs with
  | [] => reg
  | (u, c) :: rest => applyRegisters rest (registerUser reg u c)

/-- The connection identity supplied by the most recent register event
for a given user in a sequence, if any. -/
def lastValue (evs : List (String × String)) (u : String) : Option String :=
  match evs with
  | [] => none
  | (u', c) :: rest =>
    match lastValue rest u with
    | some c' => some c'
    | none => if u' = u then some c else none

/-- A chat message document as built by the sendMessage handler. -/
structure ChatMessage where
  senderEmail : String
  receiverEmail : String
  text : String
  roomId : String
  timestamp : Nat
deriving Repr, DecidableEq

/-- Outcome of a sendMessage invocation: the documents inserted into
the messages collection and the receiveMessage events emitted, as
(socketId, payload) pairs. -/
structure SendOutcome where
  stored : List ChatMessage
  emitted : List (String × ChatMessage)
deriving Repr, DecidableEq

/-- The sendMessage socket handler (src/server.js lines 81 to 104 and
src/unnamed/part_001): build the message with the symmetric room id
and the current timestamp, insert it into the messages collection
(insertOk models whether the awaited insert succeeds; on failure the
catch block emits nothing), then look the receiver up in
connectedUsers and, when present, unicast the full message to that
socket. -/
def sendMessage (reg : Registry) (insertOk : Bool)
    (senderEmail receiverEmail text : String) (now : Nat) : SendOutcome :=
  let roomId := generateRoomId senderEmail receiverEmail
  let message : ChatMessage := ⟨senderEmail, receiverEmail, text, roomId, now⟩
  if insertOk then
    match mapGet reg receiverEmail with
    | some receiverSocketId => ⟨[message], [(receiverSocketId, message)]⟩
    | none => ⟨[message], []⟩
  else ⟨[], []⟩

/-- A stored job document, restricted to the fields the handlers read
(title in src/server.js, jobTitle and companyName in the variants). -/
structure Job where
  title : String
  jobTitle : String
  companyName : String
deriving Repr, DecidableEq

/-- Payload of a jobApplicationNotification event: the job title
field (named jobTitle in the variants, title in src/server.js) and
the applicant name. -/
structure NotificationPayload where
  jobTitle : String
  applicantName : String
deriving Repr, DecidableEq

/-- Payload of a broadcast newJobPosted event. -/
structure JobPostedPayload where
  jobTitle : String
  companyName : String
deriving Repr, DecidableEq

/-- HTTP response of the apply routes. -/
inductive ApplyResponse where
  | ok (message : String)
  | notFound (error : String)
  | serverError (error : String)
deriving Repr, DecidableEq

/-- HTTP response of the job-posting route. -/
inductive PostJobResponse where
  | ok (insertedId : Nat)
  | serverError (error : String)
deriving Repr, DecidableEq

/-- POST /api/jobs (src/unnamed/part_000 lines 79 to 91 and
src/unnamed/part_001): insert the job document (insertResult models
the awaited insert, carrying the inserted id on success); on failure
the catch block answers 500 and emits nothing; on success io.emit
broadcasts the newJobPosted payload to every currently connected
socket, whether registered in connectedUsers or not, and answers
success. -/
def apiJobs (sockets : List String) (insertResult : Option Nat) (job : Job) :
    PostJobResponse × List (String × JobPostedPayload) :=
  match insertResult with
  | some insertedId =>
    (.ok insertedId, sockets.map fun s => (s, ⟨job.jobTitle, job.companyName⟩))
  | none => (.serverError "Failed to post job.", [])

/-- POST /api/apply of src/unnamed/part_001 (lines 139 to 164): find
the job by id (findJob models the lookup outcome); a miss answers 404
with no emission; on a hit, look the employer up in connectedUsers
and, when present, unicast the notification; either way answer
success. -/
def apiApply (reg : Registry) (findJob : Option Job)
    (applicantName employerEmail : String) :
    ApplyResponse × List (String × NotificationPayload) :=
  match findJob with
  | none => (.notFound "Job not found", [])
  | some job =>
    match mapGet reg employerEmail with
    | some employerSocketId =>
      (.ok "Application notification sent",
        [(employerSocketId, ⟨job.jobTitle, applicantName⟩)])
    | none => (.ok "Application notification sent", [])

/-- io.to(room).emit with a possibly undefined room, as in
src/unnamed/part_000 line 100: when the Map.get returned undefined,
the broadcast targets the room named undefined, which no socket has
joined (each socket joins only the room named by its own id), so the
emit delivers to nobody and does not throw. -/
def ioToRoom (sid : Option String) (p : NotificationPayload) :
    List (String × NotificationPayload) :=
  match sid with
  | some s => [(s, p)]
  | none => []

/-- POST /api/apply of src/unnamed/part_000 (lines 94 to 112): find
the job by id; a miss answers 404 with no emission; on a hit, emit
the notification to io.to(connectedUsers.get(employerEmail)) without
checking presence, then answer success. -/
def apiApply000 (reg : Registry) (findJob : Option Job)
    (applicantName employerEmail : String) :
    ApplyResponse × List (String × NotificationPayload) :=
  match findJob with
  | none => (.notFound "Job not found", [])
  | some job =>
    (.ok "Application notification sent",
      ioToRoom (mapGet reg employerEmail) ⟨job.jobTitle, applicantName⟩)

/-- POST /api/emit-apply of src/server.js (lines 132 to 158): find the
job by id with no null check, then look the employer up in
connectedUsers; when the employer is connected the handler reads
job.title to build the notification, so a missing job raises a
TypeError there, which the catch block turns into a 500 with no
emission; when the employer is not connected, job is never read and
the handler answers success with no emission even for a missing
job. -/
def apiEmitApply (reg : Registry) (findJob : Option Job)
    (applicantName employer : String) :
    ApplyResponse × List (String × NotificationPayload) :=
  match mapGet reg employer with
  | some employerSocketId =>
    match findJob with
    | some job =>
      (.ok "Application notification sent",
        [(employerSocketId, ⟨job.title, applicantName⟩)])
    | none => (.serverError "Failed to apply.", [])
  | none => (.ok "Application notification sent", [])

example : generateRoomId "a@x" "b@x" = "a@x_b@x" := by decide
example : generateRoomId "b@x" "a@x" = "a@x_b@x" := by decide
example : generateRoomId "a" "b_c" = "a_b_c" := by decide
example : generateRoomId "a_b" "c" = "a_b_c" := by decide

/-! Helper lemmas about the JavaScript Map model. -/

theorem mapGet_mapSet (m : Registry) (k v k₀ : String) :
    mapGet (mapSet m k v) k₀ = if k = k₀ then some v else mapGet m k₀ := by
  induction m with
  | nil => simp [mapSet, mapGet]
  | cons p rest ih =>
    obtain ⟨k', v'⟩ := p
    by_cases h : k' = k
    · subst h
      by_cases h2 : k' = k₀ <;> simp [mapSet, mapGet, h2]
    · by_cases h2 : k' = k₀
      · subst h2
        have : ¬ k = k' := fun hc => h hc.symm
        simp [mapSet, mapGet, h, this]
      · simp [mapSet, mapGet, h, h2, ih]

theorem mapSet_mapSet (m : Registry) (k v w : String) :
    mapSet (mapSet m k v) k w = mapSet m k w := by
  induction m with
  | nil => simp [mapSet]
  | cons p rest ih =>
    obtain ⟨k', v'⟩ := p
    by_cases h : k' = k
    · subst h
      simp [mapSet]
    · simp [mapSet, h, ih]

theorem applyRegisters_get (evs : List (String × String)) (reg : Registry)
    (u : String) :
    mapGet (applyRegisters evs reg) u =
      match lastValue evs u with
      | some c => some c
      | none => mapGet reg u := by
  induction evs generalizing reg with
  | nil => rfl
  | cons e rest ih =>
    obtain ⟨u', c'⟩ := e
    show mapGet (applyRegisters rest (registerUser reg u' c')) u = _
    rw [ih]
    rcases h : lastValue rest u with _ | c
    · by_cases h2 : u' = u <;>
        simp [lastValue, h, h2, registerUser, mapGet_mapSet]
    · simp [lastValue, h]

/-! Helper lemmas about the two disconnect handlers. -/

theorem disconnectHandler_eq_self (reg : Registry) (c : String)
    (h : ∀ p ∈ reg, p.2 ≠ c) : disconnectHandler reg c = reg := by
  induction reg with
  | nil => rfl
  | cons p rest ih =>
    obtain ⟨k, v⟩ := p
    have hv : v ≠ c := h (k, v) (List.mem_cons_self _ _)
    simp [disconnectHandler, hv]
    exact ih fun q hq => h q (List.mem_cons_of_mem _ hq)

theorem disconnectHandlerAll_eq_self (reg : Registry) (c : String)
    (h : ∀ p ∈ reg, p.2 ≠ c) : disconnectHandlerAll reg c = reg := by
  induction reg with
  | nil => rfl
  | cons p rest ih =>
    obtain ⟨k, v⟩ := p
    have hv : v ≠ c := h (k, v) (List.mem_cons_self _ _)
    simp [disconnectHandlerAll, hv]
    exact ih fun q hq => h q (List.mem_cons_of_mem _ hq)

theorem disconnectHandler_append_first (pre suf : Registry) (u c : String)
    (h : ∀ p ∈ pre, p.2 ≠ c) :
    disconnectHandler (pre ++ (u, c) :: suf) c = pre ++ suf := by
  induction pre with
  | nil => simp [disconnectHandler]
  | cons p rest ih =>
    obtain ⟨k, v⟩ := p
    have hv : v ≠ c := h (k, v) (List.mem_cons_self _ _)
    simp [disconnectHandler, hv]
    exact ih fun q hq => h q (List.mem_cons_of_mem _ hq)

theorem disconnectHandlerAll_eq_filter (reg : Registry) (c : String) :
    disconnectHandlerAll reg c = reg.filter (fun p => !(p.2 == c)) := by
  induction reg with
  | nil => rfl
  | cons p rest ih =>
    obtain ⟨k, v⟩ := p
    by_cases h : v = c <;> simp [disconnectHandlerAll, h, ih, List.filter_cons]

/-! Helper lemmas about the JavaScript string order. -/

theorem ltCharList_asymm :
    ∀ a b : List Char, ltCharList a b = true → ltCharList b a = false := by
  intro a
  induction a with
  | nil =>
    intro b h
    cases b with
    | nil => simp [ltCharList] at h
    | cons d bs => simp [ltCharList]
  | cons c as ih =>
    intro b h
    cases b with
    | nil => simp [ltCharList] at h
    | cons d bs =>
      by_cases h1 : c.toNat < d.toNat
      · have h2 : ¬ d.toNat < c.toNat := by omega
        simp [ltCharList, h1, h2]
      · by_cases h2 : d.toNat < c.toNat
        · simp [ltCharList, h1, h2] at h
        · simp [ltCharList, h1, h2] at h ⊢
          exact ih bs h

theorem ltCharList_eq_of_both_false :
    ∀ a b : List Char, ltCharList a b = false → ltCharList b a = false →
      a = b := by
  intro a
  induction a with
  | nil =>
    intro b h1 _
    cases b with
    | nil => rfl
    | cons d bs => simp [ltCharList] at h1
  | cons c as ih =>
    intro b h1 h2
    cases b with
    | nil => simp [ltCharList] at h2
    | cons d bs =>
      by_cases hlt : c.toNat < d.toNat
      · simp [ltCharList, hlt] at h1
      · by_cases hgt : d.toNat < c.toNat
        · simp [ltCharList, hgt] at h2
        · have hcd : c = d := by
            have : Char.ofNat c.toNat = Char.ofNat d.toNat := by
              have : c.toNat = d.toNat := by omega
              rw [this]
            rwa [Char.ofNat_toNat, Char.ofNat_toNat] at this
          subst hcd
          simp [ltCharList, hlt, hgt] at h1 h2
          exact congrArg (c :: ·) (ih bs h1 h2)

theorem jsLt_asymm (a b : String) (h : jsLt a b = true) : jsLt b a = false :=
  ltCharList_asymm a.data b.data h

theorem jsLt_eq_of_both_false (a b : String) (h1 : jsLt a b = false)
    (h2 : jsLt b a = false) : a = b :=
  String.ext (ltCharList_eq_of_both_false a.data b.data h1 h2)

/-! Claim theorems. -/

/-- Claim C8: the room identifier function is symmetric, and for every
pair of identities the result is the two identities in ascending
JavaScript string order joined with the fixed separator. -/
theorem generateRoomId_symmetric_sorted :
    ∀ A B : String,
      generateRoomId A B = generateRoomId B A ∧
      ∃ s t, ((s, t) = (A, B) ∨ (s, t) = (B, A)) ∧ jsLt t s = false ∧
        generateRoomId A B = s ++ "_" ++ t := by
  intro A B
  by_cases hBA : jsLt B A = true
  · have hAB : jsLt A B = false := jsLt_asymm B A hBA
    constructor
    · simp [generateRoomId, hBA, hAB]
    · exact ⟨B, A, Or.inr rfl, hAB, by simp [generateRoomId, hBA]⟩
  · have hBA' : jsLt B A = false := by
      cases h : jsLt B A
      · rfl
      · exact absurd h hBA
    constructor
    · by_cases hAB : jsLt A B = true
      · simp [generateRoomId, hBA', hAB]
      · have hAB' : jsLt A B = false := by
          cases h : jsLt A B
          · rfl
          · exact absurd h hAB
        have : A = B := jsLt_eq_of_both_false A B hAB' hBA'
        subst this
        rfl
    · exact ⟨A, B, Or.inl rfl, hBA', by simp [generateRoomId, hBA']⟩

/-- Claim C10: the room identifier function is not injective on
unordered participant pairs: the distinct pairs (a, b_c) and (a_b, c)
both yield the room identifier a_b_c. -/
theorem generateRoomId_not_injective :
    generateRoomId "a" "b_c" = "a_b_c" ∧
    generateRoomId "a_b" "c" = "a_b_c" ∧
    ¬ ("a" = "a_b" ∧ "b_c" = "c") ∧ ¬ ("a" = "c" ∧ "b_c" = "a_b") := by
  decide

/-- Claim C9: one connection can register several user identities; the
src/server.js disconnect handler then removes only the first matching
entry, leaving a stale entry that maps another user identity to the
dead connection. The registry keeps no at-most-one-user-per-connection
invariant. -/
theorem connection_two_users_stale_entry :
    registerUser (registerUser [] "a@x" "C1") "b@x" "C1"
      = [("a@x", "C1"), ("b@x", "C1")] ∧
    mapGet [("a@x", "C1"), ("b@x", "C1")] "a@x" = some "C1" ∧
    mapGet [("a@x", "C1"), ("b@x", "C1")] "b@x" = some "C1" ∧
    disconnectHandler [("a@x", "C1"), ("b@x", "C1")] "C1" = [("b@x", "C1")] ∧
    mapGet (disconnectHandler [("a@x", "C1"), ("b@x", "C1")] "C1") "b@x"
      = some "C1" := by
  decide

/-- Claim C2: resolve returns the connection identity supplied by the
most recent register event for each user; register is total and
idempotent, and a second registration for the same user overwrites
the first, so resolve yields the new connection and not the old
one. -/
theorem presence_register_last_wins :
    (∀ (evs : List (String × String)) (u c : String),
       lastValue evs u = some c →
       mapGet (applyRegisters evs []) u = some c) ∧
    (∀ (reg : Registry) (u c : String),
       registerUser (registerUser reg u c) u c = registerUser reg u c) ∧
    (∀ (reg : Registry) (u c1 c2 : String),
       mapGet (registerUser (registerUser reg u c1) u c2) u = some c2) ∧
    (∀ (reg : Registry) (u c1 c2 : String), c1 ≠ c2 →
       mapGet (registerUser (registerUser reg u c1) u c2) u ≠ some c1) := by
  have hget : ∀ (reg : Registry) (u c1 c2 : String),
      mapGet (registerUser (registerUser reg u c1) u c2) u = some c2 := by
    intro reg u c1 c2
    simp [registerUser, mapGet_mapSet]
  refine ⟨?_, ?_, hget, ?_⟩
  · intro evs u c h
    rw [applyRegisters_get, h]
  · intro reg u c
    exact mapSet_mapSet reg u c c
  · intro reg u c1 c2 hne
    rw [hget]
    intro hc
    exact hne (Option.some.inj hc).symm

/-- Witness for claim C2 at a concrete registration sequence. -/
theorem presence_register_last_wins_witness :
    mapGet (applyRegisters [("u@x", "C1"), ("u@x", "C2")] []) "u@x"
      = some "C2" ∧
    mapGet (registerUser (registerUser [] "u@x" "C1") "u@x" "C2") "u@x"
      ≠ some "C1" :=
  ⟨presence_register_last_wins.1 [("u@x", "C1"), ("u@x", "C2")] "u@x" "C2"
     (by decide),
   presence_register_last_wins.2.2.2 [] "u@x" "C1" "C2" (by decide)⟩

/-- Claim C3: sendMessage persists before delivering: a failed insert
emits nothing; a successful insert stores the full message, and the
emitted events are exactly one copy of the stored message (room id and
timestamp included) unicast to the resolved receiver socket, or none
when the receiver is offline. -/
theorem sendMessage_persist_then_deliver :
    ∀ (reg : Registry) (s r t : String) (now : Nat),
      sendMessage reg false s r t now = ⟨[], []⟩ ∧
      (sendMessage reg true s r t now).stored
        = [⟨s, r, t, generateRoomId s r, now⟩] ∧
      (sendMessage reg true s r t now).emitted
        = (match mapGet reg r with
           | some sid => [(sid, (⟨s, r, t, generateRoomId s r, now⟩ : ChatMessage))]
           | none => []) := by
  intro reg s r t now
  refine ⟨rfl, ?_, ?_⟩ <;>
    cases h : mapGet reg r <;> simp [sendMessage, h]

theorem disconnect_unique_match :
    ∀ (reg : Registry) (u c : String),
      (reg.map Prod.fst).Nodup → (u, c) ∈ reg →
      (∀ p ∈ reg, p.2 = c → p = (u, c)) →
      ∃ pre suf, reg = pre ++ (u, c) :: suf ∧
        disconnectHandler reg c = pre ++ suf ∧
        disconnectHandlerAll reg c = pre ++ suf := by
  intro reg
  induction reg with
  | nil =>
    intro u c _ hmem _
    cases hmem
  | cons p rest ih =>
    intro u c hnd hmem huniq
    obtain ⟨k, v⟩ := p
    by_cases hv : v = c
    · subst hv
      have hke : (k, v) = (u, v) := huniq (k, v) (List.mem_cons_self _ _) rfl
      have hku : k = u := by injection hke
      subst hku
      simp only [List.map_cons] at hnd
      have hnotin : k ∉ rest.map Prod.fst := (List.nodup_cons.mp hnd).1
      have hrest : ∀ q ∈ rest, q.2 ≠ v := by
        intro q hq hqc
        have hq2 : q = (k, v) := huniq q (List.mem_cons_of_mem _ hq) hqc
        subst hq2
        exact hnotin (List.mem_map_of_mem Prod.fst hq)
      refine ⟨[], rest, by simp, ?_, ?_⟩
      · simp [disconnectHandler]
      · simp [disconnectHandlerAll]
        exact disconnectHandlerAll_eq_self rest v hrest
    · have hne : (u, c) ≠ (k, v) := by
        intro h
        injection h with h1 h2
        exact hv h2.symm
      have hmem' : (u, c) ∈ rest := by
        rcases List.mem_cons.mp hmem with h | h
        · exact absurd h hne
        · exact h
      simp only [List.map_cons] at hnd
      have hnd' : (rest.map Prod.fst).Nodup := (List.nodup_cons.mp hnd).2
      have huniq' : ∀ q ∈ rest, q.2 = c → q = (u, c) := fun q hq =>
        huniq q (List.mem_cons_of_mem _ hq)
      obtain ⟨pre, suf, h1, h2, h3⟩ := ih u c hnd' hmem' huniq'
      exact ⟨(k, v) :: pre, suf, by simp [h1],
        by simp [disconnectHandler, hv, h2],
        by simp [disconnectHandlerAll, hv, h3]⟩

/-- Claim C1: disconnecting a connection that owns the unique presence
entry storing it removes exactly that entry (in every variant of the
handler), and disconnecting a superseded connection, to which no entry
maps any more, changes nothing, so the newer entry of the re-registered
user survives. -/
theorem presence_disconnect_owner_removes_entry :
    (∀ (reg : Registry) (u c : String),
       (reg.map Prod.fst).Nodup → (u, c) ∈ reg →
       (∀ p ∈ reg, p.2 = c → p = (u, c)) →
       ∃ pre suf, reg = pre ++ (u, c) :: suf ∧
         disconnectHandler reg c = pre ++ suf ∧
         disconnectHandlerAll reg c = pre ++ suf) ∧
    (∀ (reg : Registry) (c : String), (∀ p ∈ reg, p.2 ≠ c) →
       disconnectHandler reg c = reg ∧ disconnectHandlerAll reg c = reg) :=
  ⟨disconnect_unique_match, fun reg c h =>
    ⟨disconnectHandler_eq_self reg c h, disconnectHandlerAll_eq_self reg c h⟩⟩

/-- Witness for claim C1: a concrete owned entry is removed, and the
disconnect of a superseded connection leaves the newer entry. -/
theorem presence_disconnect_owner_removes_entry_witness :
    (∃ pre suf, ([("a@x", "C1"), ("b@x", "C2")] : Registry)
        = pre ++ ("a@x", "C1") :: suf ∧
      disconnectHandler [("a@x", "C1"), ("b@x", "C2")] "C1" = pre ++ suf ∧
      disconnectHandlerAll [("a@x", "C1"), ("b@x", "C2")] "C1" = pre ++ suf) ∧
    disconnectHandler [("u@x", "C2")] "C1" = [("u@x", "C2")] :=
  ⟨presence_disconnect_owner_removes_entry.1
     [("a@x", "C1"), ("b@x", "C2")] "a@x" "C1"
     (by decide) (by decide) (by decide),
   (presence_disconnect_owner_removes_entry.2
     [("u@x", "C2")] "C1" (by decide)).1⟩

/-- Counterexample for claim C4: the src/unnamed/part_000 disconnect
handler, cited by the claim, removes both entries of a connection that
registered two user identities, so it does not remove at most one and
does not stop at the first match. -/
theorem disconnectAll_removes_two_entries :
    disconnectHandlerAll [("a@x", "C1"), ("b@x", "C1")] "C1" = [] ∧
    ¬ (([("a@x", "C1"), ("b@x", "C1")] : Registry).length ≤
        (disconnectHandlerAll [("a@x", "C1"), ("b@x", "C1")] "C1").length
          + 1) := by
  decide

/-- Claim C4 amended: the src/server.js disconnect handler removes at
most one entry, stopping at the first entry whose stored connection
identity matches, and is a no-op when none matches; the
src/unnamed/part_000 handler, lacking the break, instead removes every
matching entry. -/
theorem disconnect_variants_first_match :
    (∀ (pre suf : Registry) (u c : String), (∀ p ∈ pre, p.2 ≠ c) →
       disconnectHandler (pre ++ (u, c) :: suf) c = pre ++ suf) ∧
    (∀ (reg : Registry) (c : String),
       reg.length ≤ (disconnectHandler reg c).length + 1) ∧
    (∀ (reg : Registry) (c : String), (∀ p ∈ reg, p.2 ≠ c) →
       disconnectHandler reg c = reg) ∧
    (∀ (reg : Registry) (c : String),
       disconnectHandlerAll reg c = reg.filter (fun p => !(p.2 == c))) := by
  refine ⟨disconnectHandler_append_first, ?_,
    disconnectHandler_eq_self, disconnectHandlerAll_eq_filter⟩
  intro reg c
  induction reg with
  | nil => simp [disconnectHandler]
  | cons p rest ih =>
    obtain ⟨k, v⟩ := p
    by_cases hv : v = c
    · simp [disconnectHandler, hv]
    · simp [disconnectHandler, hv]
      omega

/-- Witness for the amended claim C4: with two entries storing the
same connection, the src/server.js handler removes only the first and
the src/unnamed/part_000 handler removes both. -/
theorem disconnect_variants_first_match_witness :
    disconnectHandler [("a@x", "X"), ("b@x", "C1"), ("c@x", "C1")] "C1"
      = [("a@x", "X"), ("c@x", "C1")] ∧
    disconnectHandlerAll [("a@x", "X"), ("b@x", "C1"), ("c@x", "C1")] "C1"
      = [("a@x", "X")] := by
  constructor
  · exact disconnect_variants_first_match.1
      [("a@x", "X")] [("c@x", "C1")] "b@x" "C1" (by decide)
  · rw [disconnect_variants_first_match.2.2.2
      [("a@x", "X"), ("b@x", "C1"), ("c@x", "C1")] "C1"]
    decide

/-- Claim C5: the src/server.js route POST /api/emit-apply never
answers 404 on a missing job id: it dereferences the absent job
document and answers 500 when the employer is connected, and answers
success when the employer is offline; only the
src/unnamed/part_001 route POST /api/apply answers 404 as the
specification requires. -/
theorem emitApply_missing_job_not_404 :
    apiEmitApply [("e@x", "S1")] none "alice" "e@x"
      = (ApplyResponse.serverError "Failed to apply.", []) ∧
    apiEmitApply [] none "alice" "e@x"
      = (ApplyResponse.ok "Application notification sent", []) ∧
    apiApply [("e@x", "S1")] none "alice" "e@x"
      = (ApplyResponse.notFound "Job not found", []) := by
  decide

/-- Claim C6: the job-posting route answers 500 and emits nothing when
the insert fails; on success it broadcasts the newJobPosted payload to
exactly the currently connected sockets, which are listed regardless
of any presence registration, and the broadcast is well defined even
with no connected socket. -/
theorem postJob_broadcast_after_persist :
    ∀ (sockets : List String) (job : Job) (insertedId : Nat),
      apiJobs sockets none job
        = (PostJobResponse.serverError "Failed to post job.", []) ∧
      apiJobs sockets (some insertedId) job
        = (PostJobResponse.ok insertedId,
           sockets.map fun s => (s, ⟨job.jobTitle, job.companyName⟩)) ∧
      (apiJobs sockets (some insertedId) job).2.map Prod.fst = sockets ∧
      apiJobs [] (some insertedId) job = (PostJobResponse.ok insertedId, []) := by
  intro sockets job insertedId
  refine ⟨rfl, rfl, ?_, rfl⟩
  simp [apiJobs, Function.comp_def]

/-- Claim C7: a SubmitApplication request whose employer is not in the
presence registry emits no notification to any socket, does not fail,
and still answers success on every request facade, given that the job
id resolved. -/
theorem apply_offline_employer_success_no_emit :
    ∀ (reg : Registry) (job : Job) (applicantName employerEmail : String),
      mapGet reg employerEmail = none →
      apiApply reg (some job) applicantName employerEmail
        = (ApplyResponse.ok "Application notification sent", []) ∧
      apiApply000 reg (some job) applicantName employerEmail
        = (ApplyResponse.ok "Application notification sent", []) ∧
      apiEmitApply reg (some job) applicantName employerEmail
        = (ApplyResponse.ok "Application notification sent", []) := by
  intro reg job applicantName employerEmail h
  refine ⟨?_, ?_, ?_⟩ <;>
    simp [apiApply, apiApply000, apiEmitApply, ioToRoom, h]

/-- Witness for claim C7 at a concrete offline employer. -/
theorem apply_offline_employer_success_no_emit_witness :
    apiApply [] (some ⟨"T", "JT", "CN"⟩) "alice" "e@x"
      = (ApplyResponse.ok "Application notification sent", []) ∧
    apiApply000 [] (some ⟨"T", "JT", "CN"⟩) "alice" "e@x"
      = (ApplyResponse.ok "Application notification sent", []) ∧
    apiEmitApply [] (some ⟨"T", "JT", "CN"⟩) "alice" "e@x"
      = (ApplyResponse.ok "Application notification sent", []) :=
  apply_offline_employer_success_no_emit [] ⟨"T", "JT", "CN"⟩ "alice" "e@x" rfl
